import Mathlib

/-
  Verification development for the n8n-nodes-pdf4me-ai repository.

  The repository exposes eight document-AI operations (invoice, contract,
  health card, mortgage, bank cheque, credit card, pay stub, marriage
  certificate) as n8n node actions.  Each action resolves a document from one
  of three input modes, validates it, builds a JSON payload, submits it to a
  fixed REST path through the shared asynchronous client
  pdf4meAsyncRequest, and wraps the terminal JSON result with a _metadata
  envelope.  The node dispatcher (Pdf4me.execute) runs one action per input
  item and collects the records.

  Embedding notes:
  - JS strings are modelled by Lean String; where the JS code manipulates a
    string character by character (split/startsWith/substring), the model
    works on String.toList so that the comma-splitting semantics of
    String.prototype.split is captured exactly.
  - Host-runtime collaborators (parameter resolution, binary buffers, URL
    download, JSON.parse, the wall clock) are modelled as fields of an Env
    record holding already-resolved values, as the spec directs (section 6).
  - The shared async client lives in GenericFunctions.ts, which is not among
    the provided sources (only its importers are); it is modelled from the
    spec, see pdf4meAsyncRequest below.
-/

/-- The `_metadata` envelope attached to every successful result.  Fields
mirror the IDataObject literals built in each action; optional entries are
`none` when the corresponding `metadata.x = ...` assignment does not run. -/
structure Metadata where
  success : Bool
  message : String
  processingTimestamp : String
  sourceFileName : String
  operation : String
  documentType : Option String := none
  verifyAuthenticity : Option Bool := none
  customFieldsUsed : Option (List String) := none
  customFieldsCount : Option Nat := none
deriving DecidableEq, Repr

/-- JSON-ish values appearing in request payloads and output records.  Remote
result objects are modelled one level deep (a list of string-keyed fields),
which is all the repository code ever inspects; the metadata envelope is the
only structured value the code itself builds. -/
inductive JVal where
  | str (s : String)
  | bool (b : Bool)
  | arr (xs : List String)
  | metaObj (m : Metadata)
deriving DecidableEq, Repr

/-- One entry of the `customFields` fixedCollection.  The invoice action
names the string field `name` (with an auxiliary description), the other
actions name it `key`; both are modelled by `name`. -/
structure CField where
  name : String
  description : String := ""
deriving DecidableEq, Repr

/-! ## Base64 input normalization

The base64 input mode runs
  `if (docContent.includes(',')) docContent = docContent.split(',')[1];`
`splitComma` models `String.prototype.split(',')` on the character list. -/

/-- JS `s.split(',')` on a character list: the list of comma-free segments,
including empty ones, exactly as String.prototype.split produces them. -/
def splitComma : List Char → List (List Char)
  | [] => [[]]
  | c :: cs =>
    match splitComma cs with
    | [] => [[c]]
    | seg :: rest => if c = ',' then [] :: seg :: rest else (c :: seg) :: rest

/-- The base64-mode normalization applied to the character list of the
parameter value: `docContent.includes(',') ? docContent.split(',')[1] :
docContent`. -/
def stripChars (cs : List Char) : List Char :=
  if ',' ∈ cs then (splitComma cs).getD 1 [] else cs

/-- String-level wrapper used by the action model. -/
def stripDataUrl (s : String) : String := (stripChars s.toList).asString

/-! ## The asynchronous long-running-request client (spec-modelled)

`pdf4meAsyncRequest` and `ActionConstants` live in
`nodes/Pdf4me/GenericFunctions.ts`, which is not among the provided sources
(only files importing it are).  Both are modelled from the spec. -/

/-- A terminal response body: either an already-parsed JSON object (what the
transport hands over when the body was JSON) or a raw string that the action
must `JSON.parse` itself. -/
inductive RBody where
  | jsonObj (fields : List (String × JVal))
  | strBody (s : String)
deriving DecidableEq, Repr

/-- A classified HTTP response as the spec describes it: an immediate 2xx
body, a 202 Accepted (the polling location is opaque and replayed verbatim,
so it is not carried here), or an error status with body. -/
inductive HttpResp where
  | ok (body : RBody)
  | accepted
  | err (status : Nat) (body : String)
deriving DecidableEq, Repr

/-- The remote service as seen through the authenticated transport: the
response to the initial POST and the response to the n-th poll GET. -/
structure RemoteEnv where
  submit : HttpResp := HttpResp.accepted
  polls : Nat → HttpResp := fun _ => HttpResp.accepted

/-- Poll interval and overall deadline of the async client (milliseconds). -/
structure AsyncConfig where
  deadline : Nat := 0
  interval : Nat := 0
deriving DecidableEq, Repr

/-- Modelled from the spec: the error kinds `pdf4meAsyncRequest` can raise --
a remote API error (status and body verbatim), a timeout distinct in kind
from an API error, or a transport failure with the underlying error code. -/
inductive AsyncError where
  | apiError (status : Nat) (body : String)
  | timeout
  | transport (code : String)
deriving DecidableEq, Repr

/-- Modelled from the spec: with deadline D and fixed interval I the poll
loop can issue at most ceil(D/I) polls before the deadline elapses. -/
def maxPolls (cfg : AsyncConfig) : Nat :=
  (cfg.deadline + cfg.interval - 1) / cfg.interval

/-- Modelled from the spec: the poll phase.  `fuel` is the number of polls
the deadline still allows, `issued` counts polls already issued; the result
carries the outcome and the total number of polls issued.  Each poll
response is classified terminal-success / still-processing / error, and an
error response aborts immediately. -/
def pollLoop (polls : Nat → HttpResp) : Nat → Nat → Except AsyncError RBody × Nat
  | 0, issued => (Except.error AsyncError.timeout, issued)
  | fuel + 1, issued =>
    match polls issued with
    | HttpResp.ok body => (Except.ok body, issued + 1)
    | HttpResp.accepted => pollLoop polls fuel (issued + 1)
    | HttpResp.err s b => (Except.error (AsyncError.apiError s b), issued + 1)

/-- Modelled from the spec: `pdf4meAsyncRequest` (GenericFunctions.ts, not in
the provided sources).  Submit, then: immediate 2xx body ends the protocol;
202 enters the poll loop; any other status is an API error with status and
body verbatim.  Returns the outcome plus the number of polls issued. -/
def pdf4meAsyncRequest (cfg : AsyncConfig) (remote : RemoteEnv) :
    Except AsyncError RBody × Nat :=
  match remote.submit with
  | HttpResp.ok body => (Except.ok body, 0)
  | HttpResp.err s b => (Except.error (AsyncError.apiError s b), 0)
  | HttpResp.accepted => pollLoop remote.polls (maxPolls cfg) 0

/-! ## The eight document-type actions

The eight action modules are near-identical; the model is one generic
execute parameterized by `ActionKind`, with the per-kind differences (PDF
validation, error classes, payload and metadata shaping, REST path, message
texts) read off the corresponding source file. -/

inductive ActionKind where
  | invoice | contract | healthCard | mortgage
  | bankCheque | creditCard | payStub | marriageCert
deriving DecidableEq, Repr

/-- Which actions validate that the base64 content starts with the PDF
header (invoice, contract, mortgage, bank cheque); the card/stub/certificate
actions skip it because images need not be PDFs. -/
def validatesPdf : ActionKind → Bool
  | ActionKind.invoice | ActionKind.contract
  | ActionKind.mortgage | ActionKind.bankCheque => true
  | _ => false

/-- Which actions use the NodeApiError / NodeOperationError classes and a
pairedItem on output (contract, pay stub, bank cheque); the rest throw plain
`Error`s and omit pairedItem. -/
def contractStyle : ActionKind → Bool
  | ActionKind.contract | ActionKind.payStub | ActionKind.bankCheque => true
  | _ => false

/-- Fixed REST path per document type. -/
def apiPath : ActionKind → String
  | ActionKind.invoice => "/api/v2/ProcessInvoice"
  | ActionKind.contract => "/api/v2/ProcessContract"
  | ActionKind.healthCard => "/api/v2/ProcessHealthCard"
  | ActionKind.mortgage => "/api/v2/ProcessMortgageDocument"
  | ActionKind.bankCheque => "/api/v2/ProcessBankCheque"
  | ActionKind.creditCard => "/api/v2/ProcessCreditCard"
  | ActionKind.payStub => "/api/v2/ProcessPayStub"
  | ActionKind.marriageCert => "/api/v2/ProcessMarriageCertificate"

/-- The `operation` string each action writes into its metadata. -/
def opName : ActionKind → String
  | ActionKind.invoice => "aiInvoiceParser"
  | ActionKind.contract => "aiProcessContract"
  | ActionKind.healthCard => "aiProcessHealthCard"
  | ActionKind.mortgage => "aiProcessMortgageDocument"
  | ActionKind.bankCheque => "aiProcessBankCheque"
  | ActionKind.creditCard => "aiProcessCreditCard"
  | ActionKind.payStub => "aiProcessPayStub"
  | ActionKind.marriageCert => "aiProcessMarriageCertificate"

/-- The success message each action writes into its metadata. -/
def successMsg : ActionKind → String
  | ActionKind.invoice => "Invoice processed successfully using AI"
  | ActionKind.contract => "Contract processed successfully using AI"
  | ActionKind.healthCard => "Health card processed successfully using AI"
  | ActionKind.mortgage => "Mortgage document processed successfully using AI"
  | ActionKind.bankCheque => "Bank cheque processed successfully using AI"
  | ActionKind.creditCard => "Credit card processed successfully using AI"
  | ActionKind.payStub => "Pay stub processed successfully using AI"
  | ActionKind.marriageCert => "Marriage certificate processed successfully using AI"

/-- The message of the empty-content validation error, per action. -/
def contentRequiredMsg : ActionKind → String
  | ActionKind.invoice => "Invoice content is required"
  | ActionKind.contract => "Contract content is required"
  | ActionKind.healthCard => "Health card content is required"
  | ActionKind.mortgage => "Mortgage document content is required"
  | ActionKind.bankCheque => "Bank cheque content is required"
  | ActionKind.creditCard => "Credit card content is required"
  | ActionKind.payStub => "Pay stub content is required"
  | ActionKind.marriageCert => "Marriage certificate content is required"

/-- The message thrown when the terminal result is falsy, per action. -/
def noResponseMsg : ActionKind → String
  | ActionKind.invoice => "No response data received from PDF4ME AI Invoice Processing API"
  | ActionKind.contract => "No response data received from PDF4ME AI Contract Processing API"
  | ActionKind.healthCard => "No response data received from PDF4ME AI Health Card Processing API"
  | ActionKind.mortgage => "No response data received from PDF4ME AI Mortgage Document Processing API"
  | ActionKind.bankCheque => "No response data received from PDF4ME AI Bank Cheque Processing API"
  | ActionKind.creditCard => "No response data received from PDF4ME AI Credit Card Processing API"
  | ActionKind.payStub => "No response data received from PDF4ME AI Pay Stub Processing API"
  | ActionKind.marriageCert => "No response data received from PDF4ME AI Marriage Certificate Processing API"

/-- Everything one action invocation consumes from the host runtime and the
outside world, as already-resolved values: the chosen parameters, the binary
buffer (as base64), the URL-download result (as base64), the JSON.parse
capability, the clock, and the remote service behaviour. -/
structure Env where
  inputDataType : String := ""
  docName : String := ""
  binaryPropertyName : String := "data"
  binaryPresent : Bool := false
  binaryBase64 : String := ""
  base64Content : String := ""
  urlValue : String := ""
  urlFetchBase64 : String := ""
  customFields : List CField := []
  documentType : String := ""
  verifyAuthenticity : Bool := false
  now : String := ""
  jsonParse : String → Option (List (String × JVal)) := fun _ => none
  remote : RemoteEnv := {}
  asyncCfg : AsyncConfig := {}

/-- Error classes an action can raise.  `validation` covers the pre-request
throws (missing binary, unknown input mode, empty content, bad PDF header);
`apiError` is a NodeApiError wrapping the remote status; `parseFailure` is
the failed-JSON.parse throw; `opError` is any other plain Error /
NodeOperationError (which carries only a message, no status code). -/
inductive ExecError where
  | validation (msg : String)
  | apiError (status : Nat) (body : String)
  | parseFailure (msg : String)
  | opError (msg : String)
deriving DecidableEq, Repr

/-- Network activity of one action invocation: the authenticated GET used by
the url input mode, the POST submitting the payload, and the poll GETs. -/
inductive NetEvent where
  | getUrl (url : String)
  | apiSubmit (path : String) (payload : List (String × JVal))
  | apiPoll (n : Nat)
deriving DecidableEq, Repr

/-- JS negated-truthiness-or-blank check of docContent (empty string, or
trims to the empty string): the string is empty or all whitespace. -/
def isBlank (s : String) : Bool := s.toList.all fun c => c.isWhitespace

/-- JS docContent.startsWith check against the base64 PDF header JVBERi0x. -/
def startsWithPdfHeader (s : String) : Bool :=
  decide (s.toList.take 8 = "JVBERi0x".toList)

/-- JS `docContent.substring(0, 20)`. -/
def firstTwenty (s : String) : String := (s.toList.take 20).asString

/-- The bad-PDF-header validation message (apostrophes of the original text
omitted). -/
def invalidPdfMsg (docContent : String) : String :=
  "Invalid PDF content. Base64 should start with JVBERi0x (PDF header), but starts with: "
    ++ firstTwenty docContent

/-- Step (1) of every action: resolve the document content to a base64
string from one of the three input modes, recording any network activity.
The text of the two validation errors here is identical across all eight
files. -/
def resolveContent (env : Env) : Except ExecError String × List NetEvent :=
  if env.inputDataType = "binaryData" then
    if env.binaryPresent then (Except.ok env.binaryBase64, [])
    else
      (Except.error (ExecError.validation
        ("No binary data found in property " ++ env.binaryPropertyName)), [])
  else if env.inputDataType = "base64" then
    (Except.ok (stripDataUrl env.base64Content), [])
  else if env.inputDataType = "url" then
    (Except.ok env.urlFetchBase64, [NetEvent.getUrl env.urlValue])
  else
    (Except.error (ExecError.validation
      ("Unsupported input data type: " ++ env.inputDataType)), [])

/-- Step (2): the empty-content check shared by all actions, and the PDF
header check of the PDF-validating actions. -/
def validateContent (k : ActionKind) (docContent : String) : Option ExecError :=
  if docContent = "" || isBlank docContent then
    some (ExecError.validation (contentRequiredMsg k))
  else if validatesPdf k && !startsWithPdfHeader docContent then
    some (ExecError.validation (invalidPdfMsg docContent))
  else none

/-- The nonempty field names/keys collected from the customFields
collection: `forEach(f => { if (f.name) push(f.name) })`. -/
def collectFieldKeys (fields : List CField) : List String :=
  fields.filterMap fun f => if f.name = "" then none else some f.name

/-- Step (3): the request payload each action builds, with its exact keys
and conditional optional entries. -/
def buildPayload (k : ActionKind) (env : Env) (docContent : String) :
    List (String × JVal) :=
  let keys := collectFieldKeys env.customFields
  match k with
  | ActionKind.invoice =>
    [("docName", JVal.str env.docName), ("docContent", JVal.str docContent)]
      ++ (if keys ≠ [] then [("customFieldKeys", JVal.arr keys)] else [])
      ++ [("IsAsync", JVal.bool true)]
  | ActionKind.contract | ActionKind.healthCard =>
    [("docContent", JVal.str docContent), ("docName", JVal.str env.docName),
     ("IsAsync", JVal.bool true)]
  | ActionKind.mortgage =>
    [("docName", JVal.str env.docName), ("docContent", JVal.str docContent),
     ("IsAsync", JVal.bool true)]
      ++ (if env.documentType.trim ≠ "" then
            [("documentType", JVal.str env.documentType.trim)] else [])
      ++ (if keys ≠ [] then [("CustomFieldKeys", JVal.arr keys)] else [])
  | ActionKind.bankCheque | ActionKind.creditCard | ActionKind.payStub =>
    [("docName", JVal.str env.docName), ("docContent", JVal.str docContent),
     ("IsAsync", JVal.bool true)]
      ++ (if keys ≠ [] then [("CustomFieldKeys", JVal.arr keys)] else [])
  | ActionKind.marriageCert =>
    [("docName", JVal.str env.docName), ("docContent", JVal.str docContent),
     ("IsAsync", JVal.bool true)]
      ++ (if env.verifyAuthenticity then [("VerifyAuthenticity", JVal.bool true)] else [])
      ++ (if keys ≠ [] then [("CustomFieldKeys", JVal.arr keys)] else [])

/-- Step (5b): the metadata envelope each action builds.  Note the invoice
action keys its customFields entries on the raw supplied collection (and
records the raw names, empty ones included), while the other actions key
them on the collected nonempty keys. -/
def buildMetadata (k : ActionKind) (env : Env) : Metadata :=
  let base : Metadata :=
    { success := true, message := successMsg k, processingTimestamp := env.now,
      sourceFileName := env.docName, operation := opName k }
  let keys := collectFieldKeys env.customFields
  match k with
  | ActionKind.invoice =>
    if env.customFields ≠ [] then
      { base with customFieldsUsed := some (env.customFields.map CField.name),
                  customFieldsCount := some env.customFields.length }
    else base
  | ActionKind.contract | ActionKind.healthCard => base
  | ActionKind.mortgage =>
    let b := if env.documentType.trim ≠ "" then
               { base with documentType := some env.documentType } else base
    if keys ≠ [] then
      { b with customFieldsUsed := some keys, customFieldsCount := some keys.length }
    else b
  | ActionKind.bankCheque | ActionKind.creditCard | ActionKind.payStub =>
    if keys ≠ [] then
      { base with customFieldsUsed := some keys, customFieldsCount := some keys.length }
    else base
  | ActionKind.marriageCert =>
    let b := if env.verifyAuthenticity then
               { base with verifyAuthenticity := some true } else base
    if keys ≠ [] then
      { b with customFieldsUsed := some keys, customFieldsCount := some keys.length }
    else b

/-- JS object update semantics for `{...processedData, _metadata: v}`: an
existing `_metadata` key keeps its position but gets the new value,
otherwise the key is appended. -/
def setKey (fs : List (String × JVal)) (key : String) (v : JVal) :
    List (String × JVal) :=
  if fs.any (fun p => p.1 == key) then
    fs.map fun p => if p.1 == key then (key, v) else p
  else fs ++ [(key, v)]

/-- One output record handed back to the host runtime. -/
structure OutRecord where
  json : List (String × JVal)
  error : Option ExecError := none
  pairedItem : Option Nat := none
deriving DecidableEq, Repr

/-- The single success record an action returns: the parsed remote fields
with the `_metadata` envelope merged in, plus a pairedItem for the actions
that set one. -/
def successRecord (k : ActionKind) (env : Env) (index : Nat)
    (fields : List (String × JVal)) : OutRecord :=
  { json := setKey fields "_metadata" (JVal.metaObj (buildMetadata k env)),
    pairedItem := if contractStyle k then some index else none }

/-- JS truthiness of the result value: a string is truthy iff nonempty, an
object is truthy. -/
def truthy : RBody → Bool
  | RBody.strBody s => s ≠ ""
  | RBody.jsonObj _ => true

/-- Step (5): response processing.  A falsy result throws the no-response
error; a string result goes through JSON.parse, whose failure throws the
parse-failure error; otherwise the single success record is returned. -/
def processResult (k : ActionKind) (env : Env) (index : Nat) (body : RBody) :
    Except ExecError (List OutRecord) :=
  if truthy body then
    match body with
    | RBody.strBody s =>
      match env.jsonParse s with
      | some fields => Except.ok [successRecord k env index fields]
      | none => Except.error (ExecError.parseFailure "Failed to parse API response")
    | RBody.jsonObj fields => Except.ok [successRecord k env index fields]
  else Except.error (ExecError.opError (noResponseMsg k))

/-- The debug suffix interpolated into the catch-block messages. -/
def debugTail (docLen : Nat) (docName : String) : String :=
  "docLength=" ++ toString docLen ++ ", docName=" ++ docName

/-- The exact message of the 401 branch of the plain-Error catch blocks:
it names the failure class but carries the status neither as a field nor in
the text. -/
def authFailedMsg (docLen : Nat) (docName : String) : String :=
  "Authentication failed. Debug: " ++ debugTail docLen docName

/-- Step (4b): the catch block around the pdf4meAsyncRequest call.  The
contract / pay stub / bank cheque files rethrow any status-carrying error as
a NodeApiError (status preserved) and everything else as a connection
NodeOperationError; the other five files translate every failure into a
plain Error whose message distinguishes ECONNRESET and the statuses 500,
404, 401, 403 and 429, quoting the number only in the 500 and generic
branches. -/
def mapCatch (k : ActionKind) (docContent docName : String) (e : AsyncError) :
    ExecError :=
  if contractStyle k then
    match e with
    | AsyncError.apiError s b => ExecError.apiError s b
    | AsyncError.transport code =>
      ExecError.opError ("Connection error | Debug: " ++ debugTail docContent.length docName
        ++ ", errorCode=" ++ code)
    | AsyncError.timeout =>
      ExecError.opError ("Connection error | Debug: " ++ debugTail docContent.length docName)
  else
    match e with
    | AsyncError.transport code =>
      if code = "ECONNRESET" then
        ExecError.opError ("Connection was reset. Debug: " ++ debugTail docContent.length docName)
      else
        ExecError.opError ("Connection error | Debug: " ++ debugTail docContent.length docName
          ++ ", errorCode=" ++ code)
    | AsyncError.apiError s b =>
      if s = 500 then
        ExecError.opError ("PDF4Me server error (500): " ++ b ++ " | Debug: "
          ++ debugTail docContent.length docName)
      else if s = 404 then
        ExecError.opError ("API endpoint not found. Debug: " ++ debugTail docContent.length docName)
      else if s = 401 then
        ExecError.opError (authFailedMsg docContent.length docName)
      else if s = 403 then
        ExecError.opError ("Access denied. Debug: " ++ debugTail docContent.length docName)
      else if s = 429 then
        ExecError.opError ("Rate limit exceeded. Debug: " ++ debugTail docContent.length docName)
      else
        ExecError.opError ("PDF4Me API error (" ++ toString s ++ "): " ++ b
          ++ " | Debug: " ++ debugTail docContent.length docName)
    | AsyncError.timeout =>
      ExecError.opError ("Connection error | Debug: " ++ debugTail docContent.length docName)

/-- One action invocation end to end: resolve input, validate, build the
payload, call the async client, map any client error through the catch
block, process the terminal body.  The second component is the list of
network events in order. -/
def actionExecute (k : ActionKind) (env : Env) (index : Nat) :
    Except ExecError (List OutRecord) × List NetEvent :=
  match resolveContent env with
  | (Except.error e, tr) => (Except.error e, tr)
  | (Except.ok docContent, tr) =>
    match validateContent k docContent with
    | some e => (Except.error e, tr)
    | none =>
      let payload := buildPayload k env docContent
      let res := pdf4meAsyncRequest env.asyncCfg env.remote
      let tr2 := tr ++ NetEvent.apiSubmit (apiPath k) payload
                   :: (List.range res.2).map NetEvent.apiPoll
      match res.1 with
      | Except.error e => (Except.error (mapCatch k docContent env.docName e), tr2)
      | Except.ok body => (processResult k env index body, tr2)

/-! ## The node dispatcher (Pdf4me.execute) -/

/-- Modelled from the spec: the `ActionConstants` operation identifiers live
in GenericFunctions.ts, which is not among the provided sources; they are
modelled as eight distinct strings.  No claim depends on their exact
values. -/
def ActionConstants.AiInvoiceParser : String := "aiInvoiceParser"

def ActionConstants.AiProcessHealthCard : String := "aiProcessHealthCard"

def ActionConstants.AiProcessContract : String := "aiProcessContract"

def ActionConstants.AiProcessMortgageDocument : String := "aiProcessMortgageDocument"

def ActionConstants.AiProcessBankCheque : String := "aiProcessBankCheque"

def ActionConstants.AiProcessCreditCard : String := "aiProcessCreditCard"

def ActionConstants.AiProcessPayStub : String := "aiProcessPayStub"

def ActionConstants.AiProcessMarriageCertificate : String := "aiProcessMarriageCertificate"

/-- The if / else-if dispatch of Pdf4me.execute: which action a given
operation parameter selects.  The chain has no else branch, hence the
`none` case. -/
def actionForOp (op : String) : Option ActionKind :=
  if op = ActionConstants.AiInvoiceParser then some ActionKind.invoice
  else if op = ActionConstants.AiProcessHealthCard then some ActionKind.healthCard
  else if op = ActionConstants.AiProcessContract then some ActionKind.contract
  else if op = ActionConstants.AiProcessMortgageDocument then some ActionKind.mortgage
  else if op = ActionConstants.AiProcessBankCheque then some ActionKind.bankCheque
  else if op = ActionConstants.AiProcessCreditCard then some ActionKind.creditCard
  else if op = ActionConstants.AiProcessPayStub then some ActionKind.payStub
  else if op = ActionConstants.AiProcessMarriageCertificate then some ActionKind.marriageCert
  else none

/-- One input item as the dispatcher sees it: its operation parameter, its
original json (for error records), and the per-item environment. -/
structure Item where
  operation : String
  inputJson : List (String × JVal) := []
  env : Env := {}

/-- The per-item error record the dispatcher pushes under continueOnFail:
`{ json: getInputData(i)[0].json, error: err, pairedItem: { item: i } }`. -/
def errorRecord (json : List (String × JVal)) (e : ExecError) (i : Nat) :
    OutRecord :=
  { json := json, error := some e, pairedItem := some i }

/-- The body of the dispatch loop for one item: an unrecognized operation
pushes nothing; a recognized one runs the action, and on a throw either
pushes the error record (continueOnFail) or rethrows. -/
def processItem (continueOnFail : Bool) (i : Nat) (item : Item) :
    Except ExecError (List OutRecord) :=
  match actionForOp item.operation with
  | none => Except.ok []
  | some k =>
    match (actionExecute k item.env i).1 with
    | Except.ok recs => Except.ok recs
    | Except.error e =>
      if continueOnFail then Except.ok [errorRecord item.inputJson e i]
      else Except.error e

/-- The dispatch loop from item index `i` on, accumulating output records;
a rethrown error aborts the whole batch. -/
def nodeGo (continueOnFail : Bool) : Nat → List Item → Except ExecError (List OutRecord)
  | _, [] => Except.ok []
  | i, item :: rest =>
    match processItem continueOnFail i item with
    | Except.error e => Except.error e
    | Except.ok recs =>
      match nodeGo continueOnFail (i + 1) rest with
      | Except.error e => Except.error e
      | Except.ok more => Except.ok (recs ++ more)

/-- Pdf4me.execute: run every input item through the dispatch loop.  (The
source wraps the record list in one more singleton list on return, which is
dropped here.) -/
def nodeExecute (continueOnFail : Bool) (items : List Item) :
    Except ExecError (List OutRecord) :=
  nodeGo continueOnFail 0 items

/-! ## Statement-level predicates and concrete environments -/

/-- Events that are not calls to the processing API: the url-mode document
download. -/
def isDocFetch : NetEvent → Bool
  | NetEvent.getUrl _ => true
  | _ => false

/-- The characters of a data URL marker around a mime type,
`data:<mime>;base64,`. -/
def dataUrlPrefixChars (mime : List Char) : List Char :=
  "data:".toList ++ mime ++ ";base64,".toList

/-- Per-action statement of the optional payload keys of claim C5: which
optional key each action defines and the exact condition under which it is
present. -/
def payloadOptionalKeySpec (k : ActionKind) (env : Env)
    (p : List (String × JVal)) : Prop :=
  let keys := collectFieldKeys env.customFields
  match k with
  | ActionKind.invoice =>
    (p.lookup "customFieldKeys").isSome = true ↔ keys ≠ []
  | ActionKind.contract | ActionKind.healthCard =>
    p.map Prod.fst = ["docContent", "docName", "IsAsync"]
  | ActionKind.mortgage =>
    ((p.lookup "documentType").isSome = true ↔ env.documentType.trim ≠ "") ∧
    ((p.lookup "CustomFieldKeys").isSome = true ↔ keys ≠ [])
  | ActionKind.bankCheque | ActionKind.creditCard | ActionKind.payStub =>
    (p.lookup "CustomFieldKeys").isSome = true ↔ keys ≠ []
  | ActionKind.marriageCert =>
    ((p.lookup "VerifyAuthenticity").isSome = true ↔ env.verifyAuthenticity = true) ∧
    ((p.lookup "CustomFieldKeys").isSome = true ↔ keys ≠ [])

/-- Per-action statement of the optional metadata entries of claim C6 (in
its amended form): the exact condition under which each optional entry is
recorded.  Note the invoice action keys its entries on the raw supplied
collection, the others on the collected nonempty keys. -/
def metadataOptionalSpec (k : ActionKind) (env : Env) (m : Metadata) : Prop :=
  let keys := collectFieldKeys env.customFields
  match k with
  | ActionKind.invoice =>
    m.customFieldsUsed
        = (if env.customFields ≠ [] then some (env.customFields.map CField.name) else none) ∧
    m.customFieldsCount
        = (if env.customFields ≠ [] then some env.customFields.length else none) ∧
    m.documentType = none ∧ m.verifyAuthenticity = none
  | ActionKind.contract | ActionKind.healthCard =>
    m.customFieldsUsed = none ∧ m.customFieldsCount = none ∧
    m.documentType = none ∧ m.verifyAuthenticity = none
  | ActionKind.mortgage =>
    m.documentType = (if env.documentType.trim ≠ "" then some env.documentType else none) ∧
    m.customFieldsUsed = (if keys ≠ [] then some keys else none) ∧
    m.customFieldsCount = (if keys ≠ [] then some keys.length else none) ∧
    m.verifyAuthenticity = none
  | ActionKind.bankCheque | ActionKind.creditCard | ActionKind.payStub =>
    m.customFieldsUsed = (if keys ≠ [] then some keys else none) ∧
    m.customFieldsCount = (if keys ≠ [] then some keys.length else none) ∧
    m.documentType = none ∧ m.verifyAuthenticity = none
  | ActionKind.marriageCert =>
    m.verifyAuthenticity = (if env.verifyAuthenticity then some true else none) ∧
    m.customFieldsUsed = (if keys ≠ [] then some keys else none) ∧
    m.customFieldsCount = (if keys ≠ [] then some keys.length else none) ∧
    m.documentType = none

/-- A remote that never reaches a terminal state: the submit and every poll
answer 202. -/
def remoteNeverDone : RemoteEnv :=
  { submit := HttpResp.accepted, polls := fun _ => HttpResp.accepted }

/-- url-mode environment whose downloaded document is not a PDF (the base64
of notapdf, as in the spec scenario). -/
def envC1 : Env :=
  { inputDataType := "url", docName := "invoice.pdf",
    urlValue := "https://example.com/invoice.pdf",
    urlFetchBase64 := "bm90YXBkZg==" }

/-- binaryData-mode environment whose named binary property is absent. -/
def envMissingBinary : Env :=
  { inputDataType := "binaryData", binaryPresent := false }

/-- An input item whose operation parameter matches none of the eight
recognized actions. -/
def itemUnknown : Item :=
  { operation := "someUnknownOperation", inputJson := [("x", JVal.str "1")] }

/-- An environment with an unrecognized input mode, used to exercise the
dispatcher error paths. -/
def envBadType : Env := { inputDataType := "bogus" }

/-- An item selecting the invoice action over `envBadType`, whose execute
therefore throws a validation error. -/
def failItem : Item :=
  { operation := ActionConstants.AiInvoiceParser,
    inputJson := [("x", JVal.str "1")], env := envBadType }

/-- base64-mode invoice environment with one supplied custom field. -/
def envC5 : Env :=
  { inputDataType := "base64", base64Content := "JVBERi0x", docName := "doc.pdf",
    customFields := [{ name := "phone" }] }

/-- base64-mode invoice environment with one supplied custom field whose
name is empty, and an immediately-successful remote. -/
def envC6 : Env :=
  { inputDataType := "base64", base64Content := "JVBERi0x", docName := "invoice.pdf",
    customFields := [{ name := "" }],
    now := "2026-10-12T00:00:00.000Z",
    remote := { submit := HttpResp.ok (RBody.jsonObj [("amount", JVal.str "100.00")]) } }

/-- base64-mode invoice environment whose submit fails with status 401. -/
def envC8 : Env :=
  { inputDataType := "base64", base64Content := "JVBERi0x", docName := "invoice.pdf",
    remote := { submit := HttpResp.err 401 "Unauthorized" } }

/-- base64-mode environment whose submit fails with status 401, used with
the contract action. -/
def envC8c : Env :=
  { inputDataType := "base64", base64Content := "JVBERi0x", docName := "c.pdf",
    remote := { submit := HttpResp.err 401 "nope" } }

/-- base64-mode invoice environment whose terminal response body is the
empty string. -/
def envC9 : Env :=
  { inputDataType := "base64", base64Content := "JVBERi0x", docName := "d.pdf",
    remote := { submit := HttpResp.ok (RBody.strBody "") } }

/-- base64-mode invoice environment whose terminal response body is a
nonempty string that JSON.parse rejects. -/
def envC9w : Env :=
  { inputDataType := "base64", base64Content := "JVBERi0x", docName := "d.pdf",
    remote := { submit := HttpResp.ok (RBody.strBody "notjson") },
    jsonParse := fun _ => none }

/-! ## Helper lemmas -/

theorem splitComma_ne_nil (cs : List Char) : splitComma cs ≠ [] := by
  induction cs with
  | nil => simp [splitComma]
  | cons c cs ih =>
    simp only [splitComma]
    cases h : splitComma cs with
    | nil => simp
    | cons seg rest =>
      by_cases hc : c = ',' <;> simp [hc]

theorem splitComma_cons_comma (b : List Char) :
    splitComma (',' :: b) = [] :: splitComma b := by
  simp only [splitComma]
  cases h : splitComma b with
  | nil => exact absurd h (splitComma_ne_nil b)
  | cons seg rest => simp

theorem splitComma_cons_ne (c : Char) (b : List Char) (hc : c ≠ ',') :
    splitComma (c :: b) =
      (c :: (splitComma b).headD []) :: (splitComma b).tail := by
  simp only [splitComma]
  cases h : splitComma b with
  | nil => exact absurd h (splitComma_ne_nil b)
  | cons seg rest => simp [hc]

theorem splitComma_append (a b : List Char) (ha : ',' ∉ a) :
    splitComma (a ++ ',' :: b) = a :: splitComma b := by
  induction a with
  | nil => simpa using splitComma_cons_comma b
  | cons x a ih =>
    have hx : x ≠ ',' := fun h => ha (by simp [h])
    have ha' : ',' ∉ a := fun h => ha (by simp [h])
    have hrec := ih ha'
    rw [List.cons_append, splitComma_cons_ne x (a ++ ',' :: b) hx, hrec]
    simp

theorem splitComma_headD (b : List Char) :
    (splitComma b).headD [] = b.takeWhile (fun c => c != ',') := by
  induction b with
  | nil => simp [splitComma]
  | cons c cs ih =>
    by_cases hc : c = ','
    · subst hc
      rw [splitComma_cons_comma]
      simp
    · rw [splitComma_cons_ne c cs hc]
      have hb : (c != ',') = true := by simp [hc]
      cases hsc : splitComma cs with
      | nil => exact absurd hsc (splitComma_ne_nil cs)
      | cons seg rest =>
        have ih2 := ih
        rw [hsc] at ih2
        simp only [List.headD_cons] at ih2
        simp [List.takeWhile_cons, hb, ih2, hsc]

theorem splitComma_no_comma (cs : List Char) :
    ∀ seg ∈ splitComma cs, ',' ∉ seg := by
  induction cs with
  | nil => simp [splitComma]
  | cons c cs ih =>
    intro seg hseg
    by_cases hc : c = ','
    · subst hc
      rw [splitComma_cons_comma] at hseg
      rcases List.mem_cons.mp hseg with h | h
      · simp [h]
      · exact ih seg h
    · rw [splitComma_cons_ne c cs hc] at hseg
      rcases List.mem_cons.mp hseg with h | h
      · subst h
        intro hm
        rcases List.mem_cons.mp hm with h | h
        · exact hc h.symm
        · have hhead : (splitComma cs).headD [] ∈ splitComma cs := by
            cases hsc : splitComma cs with
            | nil => exact absurd hsc (splitComma_ne_nil cs)
            | cons s r => simp
          exact ih _ hhead h
      · exact ih seg (List.mem_of_mem_tail h)

theorem splitComma_two_le (cs : List Char) (h : ',' ∈ cs) :
    2 ≤ (splitComma cs).length := by
  induction cs with
  | nil => simp at h
  | cons c cs ih =>
    by_cases hc : c = ','
    · subst hc
      rw [splitComma_cons_comma]
      have := splitComma_ne_nil cs
      have : 1 ≤ (splitComma cs).length := by
        cases hsc : splitComma cs with
        | nil => exact absurd hsc (splitComma_ne_nil cs)
        | cons s r => simp
      simpa using Nat.succ_le_succ this
    · have hmem : ',' ∈ cs := by
        rcases List.mem_cons.mp h with h | h
        · exact absurd h.symm hc
        · exact h
      rw [splitComma_cons_ne c cs hc]
      have := ih hmem
      have hlen : (splitComma cs).length = (splitComma cs).tail.length + 1 := by
        cases hsc : splitComma cs with
        | nil => exact absurd hsc (splitComma_ne_nil cs)
        | cons s r => simp
      simp only [List.length_cons]
      omega

theorem stripChars_no_comma (s : List Char) (h : ',' ∉ s) :
    stripChars s = s := by
  simp [stripChars, h]

theorem takeWhile_ne_comma (s : List Char) (h : ',' ∉ s) :
    s.takeWhile (fun c => c != ',') = s := by
  induction s with
  | nil => simp
  | cons c cs ih =>
    have hc : c ≠ ',' := fun hh => h (by simp [hh])
    have h' : ',' ∉ cs := fun hh => h (by simp [hh])
    have hb : (c != ',') = true := by simp [hc]
    simp [List.takeWhile_cons, hb, ih h']

theorem stripChars_split (a b : List Char) (ha : ',' ∉ a) :
    stripChars (a ++ ',' :: b) = b.takeWhile (fun c => c != ',') := by
  have hmem : ',' ∈ a ++ ',' :: b := by simp
  rw [stripChars, if_pos hmem, splitComma_append a b ha, List.getD_cons_succ]
  cases hsc : splitComma b with
  | nil => exact absurd hsc (splitComma_ne_nil b)
  | cons seg rest =>
    have h2 := splitComma_headD b
    rw [hsc] at h2
    simp only [List.headD_cons] at h2
    simp [h2]

theorem stripChars_mem (cs : List Char) (h : ',' ∈ cs) :
    stripChars cs ∈ splitComma cs := by
  rw [stripChars, if_pos h]
  have h2 := splitComma_two_le cs h
  have : (splitComma cs).getD 1 [] = (splitComma cs).get ⟨1, by omega⟩ := by
    rw [List.getD_eq_getElem?_getD, List.getElem?_eq_getElem (by omega)]
    simp
  rw [this]
  exact List.get_mem _ _ _

theorem stripChars_idem (cs : List Char) :
    stripChars (stripChars cs) = stripChars cs := by
  by_cases h : ',' ∈ cs
  · have hmem := stripChars_mem cs h
    exact stripChars_no_comma _ (splitComma_no_comma cs _ hmem)
  · rw [stripChars_no_comma cs h, stripChars_no_comma cs h]

theorem pollLoop_all_accepted (polls : Nat → HttpResp)
    (h : ∀ n, polls n = HttpResp.accepted) :
    ∀ fuel issued, pollLoop polls fuel issued
      = (Except.error AsyncError.timeout, issued + fuel) := by
  intro fuel
  induction fuel with
  | zero => intro issued; simp [pollLoop]
  | succ n ih =>
    intro issued
    rw [pollLoop, h issued, ih (issued + 1)]
    have : issued + 1 + n = issued + (n + 1) := by omega
    rw [this]

theorem mapCatch_ne_validation (k : ActionKind) (dc dn : String) (e : AsyncError)
    (msg : String) : mapCatch k dc dn e ≠ ExecError.validation msg := by
  cases e <;> by_cases hcs : contractStyle k = true <;>
    simp [mapCatch, hcs] <;> split_ifs <;> simp

theorem processResult_ne_validation (k : ActionKind) (env : Env) (i : Nat)
    (body : RBody) (msg : String) :
    processResult k env i body ≠ Except.error (ExecError.validation msg) := by
  cases body with
  | strBody s =>
    by_cases ht : s = ""
    · simp [processResult, truthy, ht]
    · cases hp : env.jsonParse s <;> simp [processResult, truthy, ht, hp]
  | jsonObj fields => simp [processResult, truthy]

theorem processResult_ok (k : ActionKind) (env : Env) (i : Nat) (body : RBody)
    (recs : List OutRecord) (h : processResult k env i body = Except.ok recs) :
    ∃ fields, recs = [successRecord k env i fields] := by
  cases body with
  | strBody s =>
    by_cases ht : s = ""
    · simp [processResult, truthy, ht] at h
    · cases hp : env.jsonParse s with
      | none => simp [processResult, truthy, ht, hp] at h
      | some fields =>
        simp [processResult, truthy, ht, hp] at h
        exact ⟨fields, h.symm⟩
  | jsonObj fields =>
    simp [processResult, truthy] at h
    exact ⟨fields, h.symm⟩

theorem lookup_map_setKey (fs : List (String × JVal)) (key : String) (v : JVal)
    (h : fs.any (fun p => p.1 == key) = true) :
    (fs.map fun p => if p.1 == key then (key, v) else p).lookup key = some v := by
  induction fs with
  | nil => simp at h
  | cons p rest ih =>
    by_cases hp : (p.1 == key) = true
    · have hhead : (if (p.1 == key) = true then ((key, v) : String × JVal) else p)
          = (key, v) := if_pos hp
      simp only [List.map_cons]
      rw [hhead]
      simp [List.lookup]
    · have h' : rest.any (fun p => p.1 == key) = true := by
        simp only [List.any_cons, hp, Bool.false_or] at h
        simpa using h
      have hne : key ≠ p.1 := fun hh => hp (by simp [hh])
      have hbf : (key == p.1) = false := beq_eq_false_iff_ne.mpr hne
      have hhead : (if (p.1 == key) = true then ((key, v) : String × JVal) else p)
          = p := if_neg hp
      simp only [List.map_cons]
      rw [hhead]
      simp only [List.lookup, hbf]
      exact ih h'

theorem lookup_append_singleton (fs : List (String × JVal)) (key : String) (v : JVal)
    (h : fs.any (fun p => p.1 == key) = false) :
    (fs ++ [(key, v)]).lookup key = some v := by
  induction fs with
  | nil => simp [List.lookup]
  | cons p rest ih =>
    simp only [List.any_cons, Bool.or_eq_false_iff] at h
    have hne : key ≠ p.1 := fun hh => (ne_of_beq_false h.1) hh.symm
    have hbf : (key == p.1) = false := beq_eq_false_iff_ne.mpr hne
    simp only [List.cons_append, List.lookup, hbf]
    exact ih h.2

theorem lookup_setKey (fs : List (String × JVal)) (key : String) (v : JVal) :
    (setKey fs key v).lookup key = some v := by
  unfold setKey
  by_cases h : fs.any (fun p => p.1 == key) = true
  · simp only [h, if_true]
    exact lookup_map_setKey fs key v h
  · have h' : fs.any (fun p => p.1 == key) = false := by
      cases hh : fs.any (fun p => p.1 == key)
      · rfl
      · exact absurd hh h
    simp only [h', Bool.false_eq_true, if_false]
    exact lookup_append_singleton fs key v h'

theorem resolveContent_cases (env : Env) :
    (env.inputDataType = "binaryData" ∧ env.binaryPresent = true ∧
       resolveContent env = (Except.ok env.binaryBase64, [])) ∨
    (env.inputDataType = "binaryData" ∧ env.binaryPresent = false ∧
       resolveContent env = (Except.error (ExecError.validation
         ("No binary data found in property " ++ env.binaryPropertyName)), [])) ∨
    (env.inputDataType = "base64" ∧
       resolveContent env = (Except.ok (stripDataUrl env.base64Content), [])) ∨
    (env.inputDataType = "url" ∧
       resolveContent env = (Except.ok env.urlFetchBase64,
         [NetEvent.getUrl env.urlValue])) ∨
    (env.inputDataType ≠ "binaryData" ∧ env.inputDataType ≠ "base64" ∧
       env.inputDataType ≠ "url" ∧
       resolveContent env = (Except.error (ExecError.validation
         ("Unsupported input data type: " ++ env.inputDataType)), [])) := by
  by_cases h1 : env.inputDataType = "binaryData"
  · by_cases h2 : env.binaryPresent = true
    · exact Or.inl ⟨h1, h2, by simp [resolveContent, h1, h2]⟩
    · have h2' : env.binaryPresent = false := by
        cases hh : env.binaryPresent
        · rfl
        · exact absurd hh h2
      exact Or.inr (Or.inl ⟨h1, h2', by simp [resolveContent, h1, h2']⟩)
  · by_cases h2 : env.inputDataType = "base64"
    · exact Or.inr (Or.inr (Or.inl ⟨h2, by simp [resolveContent, h1, h2]⟩))
    · by_cases h3 : env.inputDataType = "url"
      · exact Or.inr (Or.inr (Or.inr (Or.inl ⟨h3, by simp [resolveContent, h1, h2, h3]⟩)))
      · exact Or.inr (Or.inr (Or.inr (Or.inr
          ⟨h1, h2, h3, by simp [resolveContent, h1, h2, h3]⟩)))

theorem actionExecute_resolve_error (k : ActionKind) (env : Env) (i : Nat)
    (e : ExecError) (tr : List NetEvent)
    (h : resolveContent env = (Except.error e, tr)) :
    actionExecute k env i = (Except.error e, tr) := by
  unfold actionExecute
  rw [h]

theorem actionExecute_invalid (k : ActionKind) (env : Env) (i : Nat)
    (c : String) (tr : List NetEvent) (e : ExecError)
    (h : resolveContent env = (Except.ok c, tr))
    (hv : validateContent k c = some e) :
    actionExecute k env i = (Except.error e, tr) := by
  unfold actionExecute
  rw [h]
  simp [hv]

theorem actionExecute_submit (k : ActionKind) (env : Env) (i : Nat)
    (c : String) (tr : List NetEvent)
    (h : resolveContent env = (Except.ok c, tr))
    (hv : validateContent k c = none) :
    actionExecute k env i =
      ((match (pdf4meAsyncRequest env.asyncCfg env.remote).1 with
        | Except.error e => Except.error (mapCatch k c env.docName e)
        | Except.ok body => processResult k env i body),
       tr ++ NetEvent.apiSubmit (apiPath k) (buildPayload k env c)
          :: (List.range (pdf4meAsyncRequest env.asyncCfg env.remote).2).map
               NetEvent.apiPoll) := by
  unfold actionExecute
  rw [h]
  simp only [hv]
  cases (pdf4meAsyncRequest env.asyncCfg env.remote).1 <;> rfl

theorem actionExecute_ok_singleton (k : ActionKind) (env : Env) (i : Nat)
    (recs : List OutRecord) (h : (actionExecute k env i).1 = Except.ok recs) :
    recs.length = 1 := by
  have main : ∀ c tr, resolveContent env = (Except.ok c, tr) → recs.length = 1 := by
    intro c tr hrc
    cases hv : validateContent k c with
    | some e =>
      rw [actionExecute_invalid k env i c tr e hrc hv] at h
      simp at h
    | none =>
      rw [actionExecute_submit k env i c tr hrc hv] at h
      simp only at h
      cases hres : (pdf4meAsyncRequest env.asyncCfg env.remote).1 with
      | error e => rw [hres] at h; simp at h
      | ok body =>
        rw [hres] at h
        obtain ⟨fields, hf⟩ := processResult_ok k env i body recs h
        simp [hf]
  rcases resolveContent_cases env with ⟨h1, h2, hrc⟩ | ⟨h1, h2, hrc⟩ |
    ⟨h1, hrc⟩ | ⟨h1, hrc⟩ | ⟨h1, h2, h3, hrc⟩
  · exact main _ _ hrc
  · rw [actionExecute_resolve_error k env i _ _ hrc] at h; simp at h
  · exact main _ _ hrc
  · exact main _ _ hrc
  · rw [actionExecute_resolve_error k env i _ _ hrc] at h; simp at h

/-! ## Claim theorems -/

/-- C2: for a fixed deadline D and poll interval I, if the remote endpoint
never returns a terminal response, pdf4meAsyncRequest issues at most
ceil(D/I) = (D + I - 1) / I poll requests and then fails with a timeout
error whose kind is distinguishable from a remote-reported API error. -/
theorem c2_poll_timeout_bound (cfg : AsyncConfig) (remote : RemoteEnv)
    (hsub : remote.submit = HttpResp.accepted)
    (hpoll : ∀ n, remote.polls n = HttpResp.accepted) :
    (pdf4meAsyncRequest cfg remote).1 = Except.error AsyncError.timeout ∧
    (pdf4meAsyncRequest cfg remote).2
        ≤ (cfg.deadline + cfg.interval - 1) / cfg.interval ∧
    (∀ s b, AsyncError.timeout ≠ AsyncError.apiError s b) := by
  have h := pollLoop_all_accepted remote.polls hpoll (maxPolls cfg) 0
  refine ⟨?_, ?_, ?_⟩
  · simp [pdf4meAsyncRequest, hsub, h]
  · have h2 : (pdf4meAsyncRequest cfg remote).2 = maxPolls cfg := by
      simp [pdf4meAsyncRequest, hsub, h]
    rw [h2]
    simp [maxPolls]
  · intro s b hne
    exact AsyncError.noConfusion hne

/-- C2 witness: with deadline 10 and interval 3 against a never-terminal
remote, the client times out after at most ceil(10/3) = 4 polls. -/
theorem c2_poll_timeout_bound_witness :
    (pdf4meAsyncRequest { deadline := 10, interval := 3 } remoteNeverDone).1
        = Except.error AsyncError.timeout ∧
    (pdf4meAsyncRequest { deadline := 10, interval := 3 } remoteNeverDone).2 ≤ 4 ∧
    (∀ s b, AsyncError.timeout ≠ AsyncError.apiError s b) := by
  have h := c2_poll_timeout_bound { deadline := 10, interval := 3 } remoteNeverDone
      rfl (fun _ => rfl)
  simpa using h

/-- C7: base64 normalization is idempotent with respect to the data-URL
marker: a comma-free base64 payload with a `data:<mime>;base64,` marker (for
a comma-free mime type) and the bare payload normalize to the same
docContent, and normalizing an already-normalized value changes nothing. -/
theorem c7_normalization_idempotent :
    (∀ mime s : List Char, ',' ∉ mime → ',' ∉ s →
        stripChars (dataUrlPrefixChars mime ++ s) = stripChars s) ∧
    (∀ l : List Char, stripChars (stripChars l) = stripChars l) := by
  constructor
  · intro mime s hm hs
    have hcomma : ";base64,".toList = ";base64".toList ++ [','] := by decide
    have heq : dataUrlPrefixChars mime ++ s
        = (("data:".toList ++ mime) ++ ";base64".toList) ++ ',' :: s := by
      simp [dataUrlPrefixChars, hcomma]
    have hnc : ',' ∉ ("data:".toList ++ mime) ++ ";base64".toList := by
      have h1 : ',' ∉ "data:".toList := by decide
      have h2 : ',' ∉ ";base64".toList := by decide
      intro hmem
      rcases List.mem_append.mp hmem with hx | hx
      · rcases List.mem_append.mp hx with hy | hy
        · exact h1 hy
        · exact hm hy
      · exact h2 hx
    rw [heq, stripChars_split _ _ hnc, takeWhile_ne_comma s hs,
        stripChars_no_comma s hs]
  · exact stripChars_idem

/-- C7 witness: a concrete PDF payload with and without the marker, and a
concrete double normalization. -/
theorem c7_normalization_idempotent_witness :
    stripChars (dataUrlPrefixChars "application/pdf".toList ++ "JVBERi0x".toList)
        = stripChars "JVBERi0x".toList ∧
    stripChars (stripChars "data:application/pdf;base64,JVBERi0x".toList)
        = stripChars "data:application/pdf;base64,JVBERi0x".toList :=
  ⟨c7_normalization_idempotent.1 "application/pdf".toList "JVBERi0x".toList
      (by decide) (by decide),
   c7_normalization_idempotent.2 "data:application/pdf;base64,JVBERi0x".toList⟩

/-- C10 counterexample: the claim says everything up to and including the
first comma is discarded, so on x,y,z the result would be y,z; the code
keeps only the segment between the first and second comma, y. -/
theorem c10_counterexample :
    stripChars "x,y,z".toList = "y".toList ∧
    stripChars "x,y,z".toList ≠ "y,z".toList := by decide

/-- C10 (amended): in base64 mode the normalization keys off commas, not a
data: marker: an input with at least one comma becomes the segment between
the first and the second comma (running to the end of the string when there
is no second comma), and an input with no comma passes through unchanged. -/
theorem c10_comma_normalization :
    (∀ a b : List Char, ',' ∉ a →
        stripChars (a ++ ',' :: b) = b.takeWhile (fun c => c != ',')) ∧
    (∀ s : List Char, ',' ∉ s → stripChars s = s) :=
  ⟨stripChars_split, stripChars_no_comma⟩

/-- C10 witness: a two-comma input keeps only the middle segment; a
comma-free input is unchanged. -/
theorem c10_comma_normalization_witness :
    stripChars "data,b,c".toList = "b".toList ∧
    stripChars "JVBERi0x".toList = "JVBERi0x".toList := by
  constructor
  · have h := c10_comma_normalization.1 "data".toList "b,c".toList (by decide)
    have heq : "data".toList ++ ',' :: "b,c".toList = "data,b,c".toList := by decide
    rw [heq] at h
    rw [h]
    decide
  · exact c10_comma_normalization.2 "JVBERi0x".toList (by decide)

/-- C1 counterexample: in url input mode the document download GET is an
HTTP request issued before content validation, so the spec scenario content
bm90YXBkZg== raises its validation error only after a network call. -/
theorem c1_counterexample :
    (actionExecute ActionKind.invoice envC1 0).1 =
      Except.error (ExecError.validation (invalidPdfMsg "bm90YXBkZg==")) ∧
    (actionExecute ActionKind.invoice envC1 0).2 =
      [NetEvent.getUrl "https://example.com/invoice.pdf"] := by
  constructor <;> rfl

/-- C1 (amended): whenever an action raises a validation error, no request
to the processing API (submit or poll) has been issued; in the binaryData
and base64 input modes no HTTP request at all has been issued, while in url
mode only the document-download GET precedes the error. -/
theorem c1_validation_before_api (k : ActionKind) (env : Env) (i : Nat)
    (msg : String)
    (h : (actionExecute k env i).1 = Except.error (ExecError.validation msg)) :
    (actionExecute k env i).2.all isDocFetch = true ∧
    (env.inputDataType ≠ "url" → (actionExecute k env i).2 = []) := by
  have notSubmit : ∀ c tr, resolveContent env = (Except.ok c, tr) →
      validateContent k c = none → False := by
    intro c tr hrc hv
    rw [actionExecute_submit k env i c tr hrc hv] at h
    simp only at h
    cases hres : (pdf4meAsyncRequest env.asyncCfg env.remote).1 with
    | error e =>
      rw [hres] at h
      exact mapCatch_ne_validation k c env.docName e msg (by injection h)
    | ok body =>
      rw [hres] at h
      exact processResult_ne_validation k env i body msg h
  rcases resolveContent_cases env with ⟨h1, h2, hrc⟩ | ⟨h1, h2, hrc⟩ |
    ⟨h1, hrc⟩ | ⟨h1, hrc⟩ | ⟨h1, h2, h3, hrc⟩
  · cases hv : validateContent k env.binaryBase64 with
    | some e => rw [actionExecute_invalid k env i _ _ e hrc hv]; simp
    | none => exact (notSubmit _ _ hrc hv).elim
  · rw [actionExecute_resolve_error k env i _ _ hrc]
    simp
  · cases hv : validateContent k (stripDataUrl env.base64Content) with
    | some e => rw [actionExecute_invalid k env i _ _ e hrc hv]; simp
    | none => exact (notSubmit _ _ hrc hv).elim
  · cases hv : validateContent k env.urlFetchBase64 with
    | some e =>
      rw [actionExecute_invalid k env i _ _ e hrc hv]
      refine ⟨by simp [isDocFetch], ?_⟩
      intro hne
      exact absurd h1 hne
    | none => exact (notSubmit _ _ hrc hv).elim
  · rw [actionExecute_resolve_error k env i _ _ hrc]
    simp

/-- C1 witness: a missing binary property raises its validation error with
an empty network trace. -/
theorem c1_validation_before_api_witness :
    (actionExecute ActionKind.invoice envMissingBinary 0).2.all isDocFetch = true ∧
    (envMissingBinary.inputDataType ≠ "url" →
      (actionExecute ActionKind.invoice envMissingBinary 0).2 = []) :=
  c1_validation_before_api ActionKind.invoice envMissingBinary 0
    "No binary data found in property data" (by rfl)

/-- C4: with continue-on-failure enabled a failing item contributes exactly
the error record carrying its original input json and the error, and the
loop goes on with the next items; with it disabled the same error aborts the
whole batch by being rethrown. -/
theorem c4_continue_on_fail_dispatch :
    (∀ i item k e, actionForOp item.operation = some k →
        (actionExecute k item.env i).1 = Except.error e →
        processItem true i item = Except.ok [errorRecord item.inputJson e i] ∧
        processItem false i item = Except.error e) ∧
    (∀ cof i item rest e, processItem cof i item = Except.error e →
        nodeGo cof i (item :: rest) = Except.error e) ∧
    (∀ cof i item rest recs, processItem cof i item = Except.ok recs →
        nodeGo cof i (item :: rest) =
          (match nodeGo cof (i + 1) rest with
           | Except.ok more => Except.ok (recs ++ more)
           | Except.error e => Except.error e)) := by
  refine ⟨?_, ?_, ?_⟩
  · intro i item k e hk he
    constructor <;> simp [processItem, hk, he]
  · intro cof i item rest e hp
    simp [nodeGo, hp]
  · intro cof i item rest recs hp
    cases hgo : nodeGo cof (i + 1) rest <;> simp [nodeGo, hp, hgo]

/-- C4 witness: a recognized item whose execute throws a validation error,
run under both continue-on-failure settings. -/
theorem c4_continue_on_fail_dispatch_witness :
    processItem true 0 failItem =
      Except.ok [errorRecord failItem.inputJson
        (ExecError.validation "Unsupported input data type: bogus") 0] ∧
    processItem false 0 failItem =
      Except.error (ExecError.validation "Unsupported input data type: bogus") :=
  c4_continue_on_fail_dispatch.1 0 failItem ActionKind.invoice
    (ExecError.validation "Unsupported input data type: bogus")
    (by rfl) (by rfl)

/-- C3 counterexample: one input item with an unrecognized operation name
yields zero output records, not one; the dispatch chain has no else branch
and pushes nothing for it. -/
theorem c3_counterexample :
    nodeExecute true [itemUnknown] = Except.ok [] := by
  rfl

/-- C3 (amended): with continue-on-failure enabled, the dispatch loop never
aborts and emits exactly one output record per input item whose operation is
one of the eight recognized actions (the merged result or the per-item error
record); items with an unrecognized operation contribute no record. -/
theorem c3_one_record_per_recognized_item (items : List Item) :
    ∃ recs, nodeExecute true items = Except.ok recs ∧
      recs.length
        = (items.filter fun it => (actionForOp it.operation).isSome).length := by
  suffices hgen : ∀ i, ∃ recs, nodeGo true i items = Except.ok recs ∧
      recs.length
        = (items.filter fun it => (actionForOp it.operation).isSome).length by
    exact hgen 0
  induction items with
  | nil => intro i; exact ⟨[], rfl, rfl⟩
  | cons item rest ih =>
    intro i
    obtain ⟨recs, hgo, hlen⟩ := ih (i + 1)
    cases ho : actionForOp item.operation with
    | none =>
      refine ⟨recs, ?_, ?_⟩
      · simp [nodeGo, processItem, ho, hgo]
      · simp [List.filter_cons, ho, hlen]
    | some k =>
      cases hres : (actionExecute k item.env i).1 with
      | ok arecs =>
        have h1 : arecs.length = 1 :=
          actionExecute_ok_singleton k item.env i arecs hres
        refine ⟨arecs ++ recs, ?_, ?_⟩
        · simp [nodeGo, processItem, ho, hres, hgo]
        · simp [List.filter_cons, ho, hlen, h1]
          omega
      | error e =>
        refine ⟨errorRecord item.inputJson e i :: recs, ?_, ?_⟩
        · simp [nodeGo, processItem, ho, hres, hgo]
        · simp [List.filter_cons, ho, hlen]

theorem buildPayload_spec (k : ActionKind) (env : Env) (c : String) :
    (buildPayload k env c).lookup "docName" = some (JVal.str env.docName) ∧
    (buildPayload k env c).lookup "docContent" = some (JVal.str c) ∧
    (buildPayload k env c).lookup "IsAsync" = some (JVal.bool true) ∧
    payloadOptionalKeySpec k env (buildPayload k env c) := by
  cases k with
  | invoice =>
    by_cases hk : collectFieldKeys env.customFields ≠ [] <;>
      simp [buildPayload, payloadOptionalKeySpec, List.lookup, hk]
  | contract =>
    simp [buildPayload, payloadOptionalKeySpec, List.lookup]
  | healthCard =>
    simp [buildPayload, payloadOptionalKeySpec, List.lookup]
  | mortgage =>
    by_cases hd : env.documentType.trim ≠ "" <;>
      by_cases hk : collectFieldKeys env.customFields ≠ [] <;>
        simp [buildPayload, payloadOptionalKeySpec, List.lookup, hd, hk]
  | bankCheque =>
    by_cases hk : collectFieldKeys env.customFields ≠ [] <;>
      simp [buildPayload, payloadOptionalKeySpec, List.lookup, hk]
  | creditCard =>
    by_cases hk : collectFieldKeys env.customFields ≠ [] <;>
      simp [buildPayload, payloadOptionalKeySpec, List.lookup, hk]
  | payStub =>
    by_cases hk : collectFieldKeys env.customFields ≠ [] <;>
      simp [buildPayload, payloadOptionalKeySpec, List.lookup, hk]
  | marriageCert =>
    by_cases hv : env.verifyAuthenticity = true <;>
      by_cases hk : collectFieldKeys env.customFields ≠ [] <;>
        simp [buildPayload, payloadOptionalKeySpec, List.lookup, hv, hk]

/-- C5: every payload handed to the async client contains docName,
docContent and IsAsync with IsAsync literally true, and each action-specific
optional key is present exactly under its documented condition (nonempty
collected custom-field keys, nonempty trimmed document type, a true
verification flag); the contract and health-card payloads consist of exactly
the three mandatory keys. -/
theorem c5_payload_shape (k : ActionKind) (env : Env) (i : Nat)
    (path : String) (p : List (String × JVal))
    (h : NetEvent.apiSubmit path p ∈ (actionExecute k env i).2) :
    p.lookup "docName" = some (JVal.str env.docName) ∧
    (∃ c, p.lookup "docContent" = some (JVal.str c)) ∧
    p.lookup "IsAsync" = some (JVal.bool true) ∧
    payloadOptionalKeySpec k env p := by
  have submitCase : ∀ c tr, resolveContent env = (Except.ok c, tr) →
      (∀ q, NetEvent.apiSubmit path q ∉ tr) →
      p.lookup "docName" = some (JVal.str env.docName) ∧
      (∃ cc, p.lookup "docContent" = some (JVal.str cc)) ∧
      p.lookup "IsAsync" = some (JVal.bool true) ∧
      payloadOptionalKeySpec k env p := by
    intro c tr hrc hno
    cases hv : validateContent k c with
    | some e =>
      rw [actionExecute_invalid k env i c tr e hrc hv] at h
      exact absurd h (hno p)
    | none =>
      rw [actionExecute_submit k env i c tr hrc hv] at h
      simp only at h
      rcases List.mem_append.mp h with hmem | hmem
      · exact absurd hmem (hno p)
      · rcases List.mem_cons.mp hmem with heq | hmem2
        · have hp2 : p = buildPayload k env c := by
            injection heq with hh1 hh2
          subst hp2
          have hs := buildPayload_spec k env c
          exact ⟨hs.1, ⟨c, hs.2.1⟩, hs.2.2.1, hs.2.2.2⟩
        · exfalso
          rcases List.mem_map.mp hmem2 with ⟨n, _, hcontra⟩
          exact NetEvent.noConfusion hcontra
  rcases resolveContent_cases env with ⟨h1, h2, hrc⟩ | ⟨h1, h2, hrc⟩ |
    ⟨h1, hrc⟩ | ⟨h1, hrc⟩ | ⟨h1, h2, h3, hrc⟩
  · exact submitCase _ _ hrc (by simp)
  · rw [actionExecute_resolve_error k env i _ _ hrc] at h
    simp at h
  · exact submitCase _ _ hrc (by simp)
  · exact submitCase _ _ hrc (by intro q hq; simp at hq)
  · rw [actionExecute_resolve_error k env i _ _ hrc] at h
    simp at h

/-- C5 witness: the invoice payload built for a base64 PDF with one custom
field named phone. -/
theorem c5_payload_shape_witness :
    (buildPayload ActionKind.invoice envC5 "JVBERi0x").lookup "docName"
        = some (JVal.str envC5.docName) ∧
    (∃ c, (buildPayload ActionKind.invoice envC5 "JVBERi0x").lookup "docContent"
        = some (JVal.str c)) ∧
    (buildPayload ActionKind.invoice envC5 "JVBERi0x").lookup "IsAsync"
        = some (JVal.bool true) ∧
    payloadOptionalKeySpec ActionKind.invoice envC5
      (buildPayload ActionKind.invoice envC5 "JVBERi0x") :=
  c5_payload_shape ActionKind.invoice envC5 0 "/api/v2/ProcessInvoice"
    (buildPayload ActionKind.invoice envC5 "JVBERi0x") (by decide)

theorem buildMetadata_spec (k : ActionKind) (env : Env) :
    (buildMetadata k env).success = true ∧
    (buildMetadata k env).message = successMsg k ∧
    (buildMetadata k env).processingTimestamp = env.now ∧
    (buildMetadata k env).sourceFileName = env.docName ∧
    (buildMetadata k env).operation = opName k ∧
    metadataOptionalSpec k env (buildMetadata k env) := by
  cases k with
  | invoice =>
    by_cases hf : env.customFields ≠ [] <;>
      simp [buildMetadata, metadataOptionalSpec, hf]
  | contract => simp [buildMetadata, metadataOptionalSpec]
  | healthCard => simp [buildMetadata, metadataOptionalSpec]
  | mortgage =>
    by_cases hd : env.documentType.trim ≠ "" <;>
      by_cases hk : collectFieldKeys env.customFields ≠ [] <;>
        simp [buildMetadata, metadataOptionalSpec, hd, hk]
  | bankCheque =>
    by_cases hk : collectFieldKeys env.customFields ≠ [] <;>
      simp [buildMetadata, metadataOptionalSpec, hk]
  | creditCard =>
    by_cases hk : collectFieldKeys env.customFields ≠ [] <;>
      simp [buildMetadata, metadataOptionalSpec, hk]
  | payStub =>
    by_cases hk : collectFieldKeys env.customFields ≠ [] <;>
      simp [buildMetadata, metadataOptionalSpec, hk]
  | marriageCert =>
    by_cases hv : env.verifyAuthenticity = true <;>
      by_cases hk : collectFieldKeys env.customFields ≠ [] <;>
        simp [buildMetadata, metadataOptionalSpec, hv, hk]

/-- C6 counterexample: with one supplied custom field whose name is empty,
the invoice payload carries no customFieldKeys entry (the optional field is
not used in the request), yet the returned metadata still records
customFieldsUsed and customFieldsCount — the metadata entries do not appear
exactly when the optional fields were used. -/
theorem c6_counterexample :
    (buildPayload ActionKind.invoice envC6 "JVBERi0x").lookup "customFieldKeys"
        = none ∧
    (actionExecute ActionKind.invoice envC6 0).1 = Except.ok
      [{ json := [("amount", JVal.str "100.00"),
                  ("_metadata", JVal.metaObj
                    { success := true,
                      message := "Invoice processed successfully using AI",
                      processingTimestamp := "2026-10-12T00:00:00.000Z",
                      sourceFileName := "invoice.pdf",
                      operation := "aiInvoiceParser",
                      customFieldsUsed := some [""],
                      customFieldsCount := some 1 })] }] := by
  constructor <;> rfl

/-- C6 (amended): every successful action result is a single record whose
json carries a `_metadata` object with success true, the per-action message,
the clock timestamp, sourceFileName equal to the supplied document name and
the operation identifier, regardless of the remote response shape; the
optional entries are recorded under the exact per-action conditions of
`metadataOptionalSpec` (for the invoice action the custom-fields entries key
off the raw supplied collection, even when no payload key was sent; the
other actions key off the collected nonempty keys). -/
theorem c6_metadata_envelope (k : ActionKind) (env : Env) (i : Nat)
    (recs : List OutRecord)
    (h : (actionExecute k env i).1 = Except.ok recs) :
    ∃ r m, recs = [r] ∧
      r.json.lookup "_metadata" = some (JVal.metaObj m) ∧
      m.success = true ∧ m.message = successMsg k ∧
      m.processingTimestamp = env.now ∧ m.sourceFileName = env.docName ∧
      m.operation = opName k ∧ metadataOptionalSpec k env m := by
  have main : ∀ c tr, resolveContent env = (Except.ok c, tr) →
      ∃ r m, recs = [r] ∧
        r.json.lookup "_metadata" = some (JVal.metaObj m) ∧
        m.success = true ∧ m.message = successMsg k ∧
        m.processingTimestamp = env.now ∧ m.sourceFileName = env.docName ∧
        m.operation = opName k ∧ metadataOptionalSpec k env m := by
    intro c tr hrc
    cases hv : validateContent k c with
    | some e =>
      rw [actionExecute_invalid k env i c tr e hrc hv] at h
      simp at h
    | none =>
      rw [actionExecute_submit k env i c tr hrc hv] at h
      simp only at h
      cases hres : (pdf4meAsyncRequest env.asyncCfg env.remote).1 with
      | error e => rw [hres] at h; simp at h
      | ok body =>
        rw [hres] at h
        obtain ⟨fields, hf⟩ := processResult_ok k env i body recs h
        have hs := buildMetadata_spec k env
        exact ⟨successRecord k env i fields, buildMetadata k env, hf,
          lookup_setKey fields "_metadata" (JVal.metaObj (buildMetadata k env)),
          hs.1, hs.2.1, hs.2.2.1, hs.2.2.2.1, hs.2.2.2.2.1, hs.2.2.2.2.2⟩
  rcases resolveContent_cases env with ⟨h1, h2, hrc⟩ | ⟨h1, h2, hrc⟩ |
    ⟨h1, hrc⟩ | ⟨h1, hrc⟩ | ⟨h1, h2, h3, hrc⟩
  · exact main _ _ hrc
  · rw [actionExecute_resolve_error k env i _ _ hrc] at h; simp at h
  · exact main _ _ hrc
  · exact main _ _ hrc
  · rw [actionExecute_resolve_error k env i _ _ hrc] at h; simp at h

/-- C6 witness: the concrete successful invoice run over envC6. -/
theorem c6_metadata_envelope_witness :
    ∃ r m,
      ([{ json := [("amount", JVal.str "100.00"),
                   ("_metadata", JVal.metaObj
                     { success := true,
                       message := "Invoice processed successfully using AI",
                       processingTimestamp := "2026-10-12T00:00:00.000Z",
                       sourceFileName := "invoice.pdf",
                       operation := "aiInvoiceParser",
                       customFieldsUsed := some [""],
                       customFieldsCount := some 1 })] }] : List OutRecord)
        = [r] ∧
      r.json.lookup "_metadata" = some (JVal.metaObj m) ∧
      m.success = true ∧ m.message = successMsg ActionKind.invoice ∧
      m.processingTimestamp = envC6.now ∧ m.sourceFileName = envC6.docName ∧
      m.operation = opName ActionKind.invoice ∧
      metadataOptionalSpec ActionKind.invoice envC6 m :=
  c6_metadata_envelope ActionKind.invoice envC6 0 _ (by rfl)

/-- C8 counterexample: a 401 at submit time makes the invoice action throw a
plain error whose message names the authentication failure but carries the
status 401 neither as a field nor in the text — the status is not preserved
for the caller. -/
theorem c8_counterexample :
    (actionExecute ActionKind.invoice envC8 0).1 =
      Except.error (ExecError.opError
        "Authentication failed. Debug: docLength=8, docName=invoice.pdf") := by
  rfl

/-- C8 (amended): when the submit fails with 401 and the action reached the
submit, the contract / pay stub / bank cheque actions propagate a
NodeApiError with the status 401 and body preserved, while the other five
actions throw a plain authentication-failure error that carries no status. -/
theorem c8_auth_error (k : ActionKind) (env : Env) (i : Nat) (b : String)
    (e : ExecError) (path : String) (p : List (String × JVal))
    (hs : env.remote.submit = HttpResp.err 401 b)
    (hm : NetEvent.apiSubmit path p ∈ (actionExecute k env i).2)
    (he : (actionExecute k env i).1 = Except.error e) :
    (contractStyle k = true → e = ExecError.apiError 401 b) ∧
    (contractStyle k = false →
      ∃ n, e = ExecError.opError (authFailedMsg n env.docName)) := by
  have hclient : pdf4meAsyncRequest env.asyncCfg env.remote
      = (Except.error (AsyncError.apiError 401 b), 0) := by
    simp [pdf4meAsyncRequest, hs]
  have main : ∀ c tr, resolveContent env = (Except.ok c, tr) →
      validateContent k c = none →
      (contractStyle k = true → e = ExecError.apiError 401 b) ∧
      (contractStyle k = false →
        ∃ n, e = ExecError.opError (authFailedMsg n env.docName)) := by
    intro c tr hrc hv
    rw [actionExecute_submit k env i c tr hrc hv, hclient] at he
    simp only at he
    have he2 : mapCatch k c env.docName (AsyncError.apiError 401 b) = e := by
      injection he
    constructor
    · intro hcs
      rw [← he2]
      simp [mapCatch, hcs]
    · intro hcs
      refine ⟨c.length, ?_⟩
      rw [← he2]
      simp [mapCatch, hcs]
  rcases resolveContent_cases env with ⟨h1, h2, hrc⟩ | ⟨h1, h2, hrc⟩ |
    ⟨h1, hrc⟩ | ⟨h1, hrc⟩ | ⟨h1, h2, h3, hrc⟩
  · cases hv : validateContent k env.binaryBase64 with
    | some e2 =>
      rw [actionExecute_invalid k env i _ _ e2 hrc hv] at hm
      simp at hm
    | none => exact main _ _ hrc hv
  · rw [actionExecute_resolve_error k env i _ _ hrc] at hm
    simp at hm
  · cases hv : validateContent k (stripDataUrl env.base64Content) with
    | some e2 =>
      rw [actionExecute_invalid k env i _ _ e2 hrc hv] at hm
      simp at hm
    | none => exact main _ _ hrc hv
  · cases hv : validateContent k env.urlFetchBase64 with
    | some e2 =>
      rw [actionExecute_invalid k env i _ _ e2 hrc hv] at hm
      simp at hm
    | none => exact main _ _ hrc hv
  · rw [actionExecute_resolve_error k env i _ _ hrc] at hm
    simp at hm

/-- C8 witness: the contract action over a 401-failing submit propagates the
status-preserving API error. -/
theorem c8_auth_error_witness :
    (contractStyle ActionKind.contract = true →
      ExecError.apiError 401 "nope" = ExecError.apiError 401 "nope") ∧
    (contractStyle ActionKind.contract = false →
      ∃ n, ExecError.apiError 401 "nope"
        = ExecError.opError (authFailedMsg n envC8c.docName)) :=
  c8_auth_error ActionKind.contract envC8c 0 "nope"
    (ExecError.apiError 401 "nope") "/api/v2/ProcessContract"
    (buildPayload ActionKind.contract envC8c "JVBERi0x")
    rfl (by decide) (by rfl)

/-- C9 counterexample: an empty-string terminal body is a string that is not
valid JSON, yet the action raises the no-response error, not a parse
failure. -/
theorem c9_counterexample :
    (actionExecute ActionKind.invoice envC9 0).1 =
      Except.error (ExecError.opError (noResponseMsg ActionKind.invoice)) ∧
    ExecError.opError (noResponseMsg ActionKind.invoice) ≠
      ExecError.parseFailure "Failed to parse API response" := by
  constructor
  · rfl
  · intro hcontra
    exact ExecError.noConfusion hcontra

/-- C9 (amended): if the terminal response body is a nonempty string that
JSON.parse rejects, the action raises the response-parse failure error (an
empty string body instead raises the no-response error). -/
theorem c9_parse_failure (k : ActionKind) (env : Env) (i : Nat) (s : String)
    (path : String) (p : List (String × JVal))
    (hs : env.remote.submit = HttpResp.ok (RBody.strBody s))
    (hne : s ≠ "")
    (hp : env.jsonParse s = none)
    (hm : NetEvent.apiSubmit path p ∈ (actionExecute k env i).2) :
    (actionExecute k env i).1
      = Except.error (ExecError.parseFailure "Failed to parse API response") := by
  have hclient : pdf4meAsyncRequest env.asyncCfg env.remote
      = (Except.ok (RBody.strBody s), 0) := by
    simp [pdf4meAsyncRequest, hs]
  have main : ∀ c tr, resolveContent env = (Except.ok c, tr) →
      validateContent k c = none →
      (actionExecute k env i).1
        = Except.error (ExecError.parseFailure "Failed to parse API response") := by
    intro c tr hrc hv
    rw [actionExecute_submit k env i c tr hrc hv, hclient]
    simp [processResult, truthy, hne, hp]
  rcases resolveContent_cases env with ⟨h1, h2, hrc⟩ | ⟨h1, h2, hrc⟩ |
    ⟨h1, hrc⟩ | ⟨h1, hrc⟩ | ⟨h1, h2, h3, hrc⟩
  · cases hv : validateContent k env.binaryBase64 with
    | some e2 =>
      rw [actionExecute_invalid k env i _ _ e2 hrc hv] at hm
      simp at hm
    | none => exact main _ _ hrc hv
  · rw [actionExecute_resolve_error k env i _ _ hrc] at hm
    simp at hm
  · cases hv : validateContent k (stripDataUrl env.base64Content) with
    | some e2 =>
      rw [actionExecute_invalid k env i _ _ e2 hrc hv] at hm
      simp at hm
    | none => exact main _ _ hrc hv
  · cases hv : validateContent k env.urlFetchBase64 with
    | some e2 =>
      rw [actionExecute_invalid k env i _ _ e2 hrc hv] at hm
      simp at hm
    | none => exact main _ _ hrc hv
  · rw [actionExecute_resolve_error k env i _ _ hrc] at hm
    simp at hm

/-- C9 witness: body notjson over a jsonParse that rejects everything. -/
theorem c9_parse_failure_witness :
    (actionExecute ActionKind.invoice envC9w 0).1
      = Except.error (ExecError.parseFailure "Failed to parse API response") :=
  c9_parse_failure ActionKind.invoice envC9w 0 "notjson" "/api/v2/ProcessInvoice"
    (buildPayload ActionKind.invoice envC9w "JVBERi0x")
    rfl (by decide) rfl (by decide)
